import Mathlib

/-!
# Verification of the Win32-OpenSSH signal emulation layer

A shallow embedding of `contrib/win32/win32compat/signal.c`: the pending
signal set, the handler (disposition) table, `sw_signal`, `sw_raise`, the
pending-signal drain loop `sw_process_pending_signals`, and the unified
wait multiplexer `wait_for_any_event`.

External collaborators (the child table's `sw_child_to_zombie`,
`sw_cleanup_child_zombies`, user-registered handlers, the native
`raise(SIGSEGV)` escalation, `ExitThread`, `DebugBreak`) are modelled as
observable events / distinguished outcomes rather than state mutations:
the core only requests them.
-/

namespace SignalC

/-- Modelled from the spec: the closed bounded domain of emulated signal
numbers (`signal_internal.h` is not part of the analysed sources; the
numeric values are arbitrary distinct small integers below the fixed
maximum, matching the spec's closed domain of kinds). -/
def W32_SIGINT : Nat := 0

/-- Modelled from the spec: the fault kind, escalated natively. -/
def W32_SIGSEGV : Nat := 1

/-- Modelled from the spec: another in-domain kind (not a drain kind). -/
def W32_SIGPIPE : Nat := 2

/-- Modelled from the spec: child-exit. -/
def W32_SIGCHLD : Nat := 3

/-- Modelled from the spec: alarm / timer expiry. -/
def W32_SIGALRM : Nat := 4

/-- Modelled from the spec: interactive stop. -/
def W32_SIGTSTP : Nat := 5

/-- Modelled from the spec: terminate request. -/
def W32_SIGTERM : Nat := 9

/-- Modelled from the spec: the fixed maximum bounding the closed domain. -/
def W32_SIGMAX : Nat := 13

/-- Modelled from the spec: `W32_SIG_DFL` is the handler value 0
(`signal.c` line 95: "this automatically sets all to SIG_DFL (0)"). -/
def W32_SIG_DFL : Nat := 0

/-- Modelled from the spec: `W32_SIG_IGN` is the sentinel handler value 1,
so that `sig_handlers[sig] > W32_SIG_IGN` recognises a real callable
address (the spec's "sentinel-value dispositions compared by address"). -/
def W32_SIG_IGN : Nat := 1

/-- `MAXIMUM_WAIT_OBJECTS`, the host's fixed ceiling on simultaneous wait
objects (Win32 constant, 64). -/
def MAXIMUM_WAIT_OBJECTS : Nat := 64

/-- The errno values the code assigns. Modelled as an enumeration; only
their distinctness matters. -/
inductive Errno where
  | EINVAL
  | EINTR
  | ENOTSUP
  | EOTHER
  deriving DecidableEq, Repr

/-- `sigset_t` with `sigaddset`: the pending set is a duplicate-free set
of signal numbers; adding an already-present number is a no-op. -/
def sigaddset (s : Finset Nat) (sig : Nat) : Finset Nat := insert sig s

/-- `sigdelset`: remove a signal number from a set. -/
def sigdelset (s : Finset Nat) (sig : Nat) : Finset Nat := s.erase sig

/-- `sigismember`. -/
def sigismember (s : Finset Nat) (sig : Nat) : Prop := sig ∈ s

instance (s : Finset Nat) (sig : Nat) : Decidable (sigismember s sig) :=
  inferInstanceAs (Decidable (sig ∈ s))

/-- `sigemptyset`. -/
def sigemptyset : Finset Nat := ∅

/-- The handler table `sig_handlers[W32_SIGMAX]`: a list of handler
values, index = signal number; 0 is `SIG_DFL`, 1 is `SIG_IGN`, any larger
value stands for the address of a registered callable. -/
def HandlerTable := List Nat

/-- Reading `sig_handlers[sig]` for an in-range index. -/
def htGet (hs : HandlerTable) (sig : Nat) : Nat := hs.getD sig W32_SIG_DFL

/-- The table after `memset(sig_handlers, 0, sizeof(sig_handlers))`:
every entry `SIG_DFL`. -/
def initHandlers : HandlerTable := List.replicate W32_SIGMAX W32_SIG_DFL

/-- Externally observable actions the core requests, in order. -/
inductive Event where
  /-- a user-registered handler callable was invoked with the signal -/
  | handlerCall (sig : Nat) (addr : Nat)
  /-- `sw_cleanup_child_zombies()` — the reap-all default action -/
  | reapZombies
  /-- `sw_child_to_zombie(index)` — transition request to the child table -/
  | childToZombie (idx : Nat)
  /-- native `raise(SIGSEGV)` escalation -/
  | nativeRaise
  /-- `ExitThread(code)` — non-returning termination of the thread -/
  | exitThread (code : Nat)
  /-- `DebugBreak()` — diagnostic breakpoint, halts (no debugger) -/
  | debugBreak
  deriving DecidableEq, Repr

/-- Outcome of `sw_raise`. -/
inductive RaiseResult where
  /-- `return 0` -/
  | ok
  /-- `return -1` with the given errno -/
  | err (e : Errno)
  /-- `return raise(SIGSEGV)` — escalated to the native fault path -/
  | native
  /-- `ExitThread(1)` executed: the call never returns -/
  | terminated
  /-- out-of-bounds access to `sig_handlers` (negative index):
  undefined behavior in the C source -/
  | undef
  deriving DecidableEq, Repr

/-- `sw_raise(int sig)` from signal.c lines 126-157. The signal number is
an `int`, so negative values are representable; the source checks only
`sig >= W32_SIGMAX`, and a negative `sig` reaches `sig_handlers[sig]`,
an out-of-bounds read modelled as `.undef`. -/
def sw_raise (hs : HandlerTable) (sig : Int) : RaiseResult × List Event :=
  if sig = (W32_SIGSEGV : Nat) then
    (.native, [.nativeRaise])
  else if sig ≥ (W32_SIGMAX : Nat) then
    (.err .EINVAL, [])
  else if sig < 0 then
    (.undef, [])
  else
    let s := sig.toNat
    if htGet hs s > W32_SIG_IGN then
      (.ok, [.handlerCall s (htGet hs s)])
    else if htGet hs s = W32_SIG_IGN then
      (.ok, [])
    else if s = W32_SIGCHLD then
      (.ok, [.reapZombies])
    else
      (.terminated, [.exitThread 1])

/-- Outcome of `sw_signal`. -/
inductive SignalResult where
  /-- the previous handler value is returned -/
  | prev (h : Nat)
  /-- `W32_SIG_ERR` returned with the given errno -/
  | err (e : Errno)
  /-- out-of-bounds access to `sig_handlers` (negative index):
  undefined behavior in the C source -/
  | undef
  deriving DecidableEq, Repr

/-- `sw_signal(int signum, sighandler_t handler)` from signal.c lines
101-114: validates only `signum >= W32_SIGMAX`; a negative `signum`
reaches `sig_handlers[signum]`, an out-of-bounds read and write modelled
as `.undef` (the table is returned unchanged, standing for the fact that
no in-bounds entry is legitimately written). -/
def sw_signal (hs : HandlerTable) (signum : Int) (handler : Nat) :
    SignalResult × HandlerTable :=
  if signum ≥ (W32_SIGMAX : Nat) then
    (.err .EINVAL, hs)
  else if signum < 0 then
    (.undef, hs)
  else
    (.prev (htGet hs signum.toNat), hs.set signum.toNat handler)

/-- The fixed priority array `exp[] = { W32_SIGCHLD, W32_SIGINT,
W32_SIGALRM, W32_SIGTERM, W32_SIGTSTP }` of
`sw_process_pending_signals`. -/
def expSignals : List Nat :=
  [W32_SIGCHLD, W32_SIGINT, W32_SIGALRM, W32_SIGTERM, W32_SIGTSTP]

/-- The validation pass of the drain: `sigdelset` each expected kind from
a copy of the pending set. -/
def removeAll (s : Finset Nat) (l : List Nat) : Finset Nat :=
  l.foldl sigdelset s

/-- Outcome of the drain's fixed-order processing loop. -/
inductive LoopOut where
  /-- the loop ran to completion with this final snapshot and
  interrupted-flag -/
  | cont (tmp : Finset Nat) (sig_int : Bool)
  /-- a dispatched default action executed `ExitThread`: the loop (and
  the call) never finishes -/
  | dead
  deriving DecidableEq

/-- The `for` loop of `sw_process_pending_signals` lines 182-194: for each
expected kind in order, if pending in the snapshot and not `SIG_IGN`,
call `sw_raise` (setting `sig_int` unless the kind is `W32_SIGALRM`),
then `sigdelset` it from the snapshot. Also returns the list of signals
for which `sw_raise` was invoked, in call order, and the events of those
calls. -/
def drainLoop (hs : HandlerTable) :
    List Nat → Finset Nat → Bool → LoopOut × List Nat × List Event
  | [], tmp, si => (.cont tmp si, [], [])
  | e :: rest, tmp, si =>
    if sigismember tmp e then
      if htGet hs e ≠ W32_SIG_IGN then
        let res := sw_raise hs e
        if res.1 = .terminated then
          (.dead, [e], res.2)
        else
          let si' := if e ≠ W32_SIGALRM then true else si
          let next := drainLoop hs rest (sigdelset tmp e) si'
          (next.1, e :: next.2.1, res.2 ++ next.2.2)
      else
        drainLoop hs rest (sigdelset tmp e) si
    else
      drainLoop hs rest tmp si

/-- Whether the drain's loop dispatches kind `e` out of snapshot `tmp`:
`e` is pending and its disposition is not `SIG_IGN` (signal.c lines
183-184). -/
def canDispatch (hs : HandlerTable) (tmp : Finset Nat) (e : Nat) : Bool :=
  decide (sigismember tmp e) && decide (htGet hs e ≠ W32_SIG_IGN)

/-- Outcome of `sw_process_pending_signals`. -/
inductive DrainResult where
  /-- `return 0` -/
  | ok
  /-- `errno = EINTR; return -1` -/
  | eintr
  /-- unexpected kinds in the pending set: `DebugBreak()` fires (lines
  171-177); with no debugger attached the breakpoint exception halts the
  process, so the subsequent `return -1` is not an ordinary result -/
  | fatalUnexpected
  /-- leftover bits after the fixed-order loop: the second `DebugBreak()`
  (line 198) -/
  | fatalLeftover
  /-- a dispatched default action executed `ExitThread`: no return -/
  | terminated
  deriving DecidableEq, Repr

/-- `sw_process_pending_signals()` from signal.c lines 160-208: validate
the snapshot against the five expected kinds (fatal if anything else is
present), atomically take the pending set (reset it to empty), process
the snapshot in fixed order, fatal if bits survive, and report `EINTR`
iff a non-alarm kind was dispatched. Returns the outcome, the drained
pending set, the dispatched signals in order, and the events. -/
def sw_process_pending_signals (hs : HandlerTable) (pending : Finset Nat) :
    DrainResult × Finset Nat × List Nat × List Event :=
  let pending_tmp := removeAll pending expSignals
  if pending_tmp ≠ ∅ then
    (.fatalUnexpected, pending, [], [.debugBreak])
  else
    match drainLoop hs expSignals pending false with
    | (.dead, disp, evs) => (.terminated, ∅, disp, evs)
    | (.cont tmp' si, disp, evs) =>
      if tmp' ≠ ∅ then
        (.fatalLeftover, ∅, disp, evs ++ [.debugBreak])
      else if si then
        (.eintr, ∅, disp, evs)
      else
        (.ok, ∅, disp, evs)

/-- The external child table's counts (`struct _children`): the first
`num_children - num_zombies` entries of its handle array are the live
child handles. The core only reads the counts; the handles themselves
are opaque, so they are not modelled. -/
structure Children where
  num_children : Nat
  num_zombies : Nat
  deriving DecidableEq, Repr

/-- `children.num_children - children.num_zombies` computed in `DWORD`
arithmetic (both counts are `DWORD`s; the subtraction wraps modulo
2^32). -/
def live_children (ch : Children) : Nat :=
  (ch.num_children + 2 ^ 32 - ch.num_zombies % 2 ^ 32) % 2 ^ 32

/-- How the alertable wait (`WaitForMultipleObjectsEx`, or `SleepEx` for
an empty wait set) ends. This is an input of the model: it stands for
the host scheduler's choice. -/
inductive WakeOutcome where
  /-- `WAIT_OBJECT_0 + idx`: the handle at combined index `idx`
  signaled (only `WaitForMultipleObjectsEx` reports this) -/
  | signaled (idx : Nat)
  /-- `WAIT_IO_COMPLETION`: queued APCs ran during the alertable wait;
  each queued deferred callback added its signal to the pending set, in
  queue order -/
  | apc (sigs : List Nat)
  /-- `WAIT_TIMEOUT` / `SleepEx` returning 0: the interval elapsed -/
  | timeout
  /-- any other return value of the native wait -/
  | otherFail
  deriving DecidableEq, Repr

/-- Outcome of `wait_for_any_event`. -/
inductive WFAReturn where
  /-- `return 0` on the non-timeout path -/
  | completed
  /-- `return 0` on the timeout path -/
  | timedOut
  /-- `return -1` with the given errno -/
  | errno (e : Errno)
  /-- a `DebugBreak()` fired inside the drain: halt -/
  | fatal
  /-- `ExitThread` inside the drain: no return -/
  | terminated
  deriving DecidableEq, Repr

/-- What a call to `wait_for_any_event` did. -/
structure WFAOut where
  /-- the call's result -/
  ret : WFAReturn
  /-- the pending set when the call ends -/
  pending : Finset Nat
  /-- external actions requested, in order -/
  events : List Event
  /-- whether the native wait/sleep was reached -/
  waited : Bool
  /-- whether `sw_process_pending_signals` was invoked -/
  drained : Bool
  /-- the pending set at the post-wait check (line 282), before any
  drain -/
  preDrain : Finset Nat
  deriving DecidableEq

/-- Map a drain outcome to the wait call's return (`return
sw_process_pending_signals()`). -/
def DrainResult.toWFA : DrainResult → WFAReturn
  | .ok => .completed
  | .eintr => .errno .EINTR
  | .fatalUnexpected => .fatal
  | .fatalLeftover => .fatal
  | .terminated => .terminated

/-- The post-wait tail of `wait_for_any_event` (lines 282-285): drain if
the pending set is non-empty, else `return 0`. -/
def wfaTail (hs : HandlerTable) (pending : Finset Nat) : WFAOut :=
  if pending ≠ ∅ then
    let d := sw_process_pending_signals hs pending
    ⟨d.1.toWFA, d.2.1, d.2.2.2, true, true, pending⟩
  else
    ⟨.completed, pending, [], true, false, pending⟩

/-- `wait_for_any_event(HANDLE* events, int num_events, DWORD
milli_seconds)` from signal.c lines 221-286, for a caller-supplied array
of `num_events` handles. The combined wait set is the `live_children`
child handles followed by the caller handles; `wake` is how the native
alertable wait ends. `milli_seconds` only parameterises the native wait,
which the `wake` input already resolves, so it does not otherwise appear.
A child-exit wake is recognised by `ret - WAIT_OBJECT_0 <
children.num_children` (line 247) — the count of ALL children, not of
the live ones actually placed in the combined set. -/
def wait_for_any_event (ch : Children) (hs : HandlerTable)
    (pending : Finset Nat) (num_events : Nat) (_milli_seconds : Nat)
    (wake : WakeOutcome) : WFAOut :=
  let num_all_events := num_events + live_children ch
  if num_all_events > MAXIMUM_WAIT_OBJECTS then
    ⟨.errno .ENOTSUP, pending, [], false, false, pending⟩
  else if num_all_events ≠ 0 then
    match wake with
    | .signaled idx =>
      if idx ≤ num_all_events - 1 then
        if ch.num_children ≠ 0 ∧ idx < ch.num_children then
          let pending' := sigaddset pending W32_SIGCHLD
          let t := wfaTail hs pending'
          ⟨t.ret, t.pending, .childToZombie idx :: t.events, true,
            t.drained, t.preDrain⟩
        else
          wfaTail hs pending
      else
        ⟨.errno .EOTHER, pending, [], true, false, pending⟩
    | .apc sigs =>
      wfaTail hs (sigs.foldl sigaddset pending)
    | .timeout =>
      ⟨.timedOut, pending, [], true, false, pending⟩
    | .otherFail =>
      ⟨.errno .EOTHER, pending, [], true, false, pending⟩
  else
    match wake with
    | .apc sigs =>
      wfaTail hs (sigs.foldl sigaddset pending)
    | .timeout =>
      ⟨.timedOut, pending, [], true, false, pending⟩
    | _ =>
      ⟨.errno .EOTHER, pending, [], true, false, pending⟩

/-! ## Basic lemmas about the pending-set operations and the drain loop -/

lemma removeAll_nil (s : Finset Nat) : removeAll s [] = s := rfl

lemma removeAll_cons (s : Finset Nat) (e : Nat) (rest : List Nat) :
    removeAll s (e :: rest) = removeAll (sigdelset s e) rest := rfl

lemma mem_removeAll (x : Nat) (l : List Nat) :
    ∀ s : Finset Nat, x ∈ removeAll s l ↔ x ∈ s ∧ x ∉ l := by
  induction l with
  | nil => intro s; simp [removeAll]
  | cons e rest ih =>
    intro s
    rw [removeAll_cons, ih]
    simp only [sigdelset, Finset.mem_erase, List.mem_cons]
    tauto

lemma removeAll_eq_empty (l : List Nat) (s : Finset Nat) :
    removeAll s l = ∅ ↔ ∀ x ∈ s, x ∈ l := by
  rw [Finset.eq_empty_iff_forall_not_mem]
  constructor
  · intro h x hx
    by_contra hnx
    exact h x ((mem_removeAll x l s).mpr ⟨hx, hnx⟩)
  · intro h x hx
    rcases (mem_removeAll x l s).mp hx with ⟨hxs, hxl⟩
    exact hxl (h x hxs)

lemma drainLoop_cont (hs : HandlerTable) (l : List Nat) :
    ∀ (tmp : Finset Nat) (si : Bool) (tmp' : Finset Nat) (si' : Bool),
      (drainLoop hs l tmp si).1 = .cont tmp' si' → tmp' = removeAll tmp l := by
  induction l with
  | nil =>
    intro tmp si tmp' si' h
    simp only [drainLoop, LoopOut.cont.injEq] at h
    exact h.1.symm
  | cons e rest ih =>
    intro tmp si tmp' si' h
    simp only [drainLoop] at h
    by_cases he : sigismember tmp e
    · rw [if_pos he] at h
      by_cases hig : htGet hs e ≠ W32_SIG_IGN
      · rw [if_pos hig] at h
        by_cases ht : (sw_raise hs e).1 = .terminated
        · rw [if_pos ht] at h
          exact absurd h (by simp)
        · rw [if_neg ht] at h
          rw [removeAll_cons]
          exact ih _ _ _ _ h
      · rw [if_neg hig] at h
        rw [removeAll_cons]
        exact ih _ _ _ _ h
    · rw [if_neg he] at h
      rw [removeAll_cons, sigdelset, Finset.erase_eq_self.mpr he]
      exact ih _ _ _ _ h

lemma any_congrAux {l : List Nat} {p q : Nat → Bool}
    (h : ∀ x ∈ l, p x = q x) : l.any p = l.any q := by
  induction l with
  | nil => rfl
  | cons a t ih =>
    simp only [List.any_cons]
    rw [h a (List.mem_cons_self a t), ih (fun x hx => h x (List.mem_cons_of_mem a hx))]

lemma filter_congrAux {l : List Nat} {p q : Nat → Bool}
    (h : ∀ x ∈ l, p x = q x) : l.filter p = l.filter q := by
  induction l with
  | nil => rfl
  | cons a t ih =>
    simp only [List.filter_cons]
    rw [h a (List.mem_cons_self a t), ih (fun x hx => h x (List.mem_cons_of_mem a hx))]

lemma canDispatch_erase (hs : HandlerTable) (tmp : Finset Nat) (e x : Nat)
    (hne : x ≠ e) : canDispatch hs (sigdelset tmp e) x = canDispatch hs tmp x := by
  simp [canDispatch, sigdelset, sigismember, Finset.mem_erase, hne]

/-- When no dispatched kind terminates the thread, the fixed-order loop
finishes, erases every kind it visits from the snapshot, reports
interrupted iff some dispatched kind is not the alarm, and dispatches
exactly the pending non-ignored kinds in the order of the input list. -/
lemma drainLoop_spec (hs : HandlerTable) (l : List Nat) :
    ∀ (tmp : Finset Nat) (si : Bool),
      l.Nodup →
      (∀ e ∈ l, e ∈ tmp → htGet hs e ≠ W32_SIG_IGN →
        (sw_raise hs e).1 ≠ .terminated) →
      (drainLoop hs l tmp si).1
          = .cont (removeAll tmp l)
              (si || l.any fun x => canDispatch hs tmp x && decide (x ≠ W32_SIGALRM))
        ∧ (drainLoop hs l tmp si).2.1 = l.filter (canDispatch hs tmp) := by
  induction l with
  | nil => intro tmp si _ _; simp [drainLoop, removeAll]
  | cons e rest ih =>
    intro tmp si hnd hret
    have hnotmem : e ∉ rest := (List.nodup_cons.mp hnd).1
    have hnd' : rest.Nodup := (List.nodup_cons.mp hnd).2
    have hcongr2 : ∀ x ∈ rest,
        canDispatch hs (sigdelset tmp e) x = canDispatch hs tmp x :=
      fun x hx => canDispatch_erase hs tmp e x (fun hxe => hnotmem (hxe ▸ hx))
    have hcongr : ∀ x ∈ rest,
        (canDispatch hs (sigdelset tmp e) x && decide (x ≠ W32_SIGALRM))
          = (canDispatch hs tmp x && decide (x ≠ W32_SIGALRM)) := by
      intro x hx
      rw [hcongr2 x hx]
    simp only [drainLoop]
    by_cases he : sigismember tmp e
    · rw [if_pos he]
      by_cases hig : htGet hs e ≠ W32_SIG_IGN
      · have hnt := hret e (List.mem_cons_self e rest) he hig
        rw [if_pos hig, if_neg hnt]
        have ihm := ih (sigdelset tmp e) (if e ≠ W32_SIGALRM then true else si) hnd'
          (fun x hx hxm hxig =>
            hret x (List.mem_cons_of_mem e hx) (Finset.mem_of_mem_erase hxm) hxig)
        have hcd : canDispatch hs tmp e = true := by
          simp [canDispatch, he, hig]
        constructor
        · rw [ihm.1, removeAll_cons]
          congr 1
          rw [any_congrAux hcongr, List.any_cons, hcd]
          by_cases halrm : e = W32_SIGALRM
          · subst halrm; simp
          · simp [halrm]
        · rw [List.filter_cons, if_pos hcd]
          rw [ihm.2, filter_congrAux hcongr2]
      · rw [if_neg hig]
        have higeq : htGet hs e = W32_SIG_IGN := not_not.mp hig
        have ihm := ih (sigdelset tmp e) si hnd'
          (fun x hx hxm hxig =>
            hret x (List.mem_cons_of_mem e hx) (Finset.mem_of_mem_erase hxm) hxig)
        have hcd : canDispatch hs tmp e = false := by
          simp [canDispatch, higeq]
        constructor
        · rw [ihm.1, removeAll_cons]
          congr 1
          rw [any_congrAux hcongr, List.any_cons, hcd]
          simp
        · rw [List.filter_cons, if_neg (by rw [hcd]; exact Bool.false_ne_true)]
          rw [ihm.2, filter_congrAux hcongr2]
    · rw [if_neg he]
      have ihm := ih tmp si hnd'
        (fun x hx hxm hxig => hret x (List.mem_cons_of_mem e hx) hxm hxig)
      have he' : ¬ e ∈ tmp := he
      have hcd : canDispatch hs tmp e = false := by
        simp [canDispatch, sigismember, he']
      constructor
      · rw [ihm.1, removeAll_cons, sigdelset, Finset.erase_eq_self.mpr he]
        congr 1
        rw [List.any_cons, hcd]
        simp
      · rw [List.filter_cons, if_neg (by rw [hcd]; exact Bool.false_ne_true)]
        exact ihm.2

/-- Marking order does not matter: the pending set built by raising the
kinds of a list in any order depends only on the multiset of kinds. -/
lemma foldl_sigaddset_perm {l₁ l₂ : List Nat} (h : l₁.Perm l₂) :
    ∀ s : Finset Nat, l₁.foldl sigaddset s = l₂.foldl sigaddset s := by
  induction h with
  | nil => intro s; rfl
  | cons x _ ih => intro s; exact ih (sigaddset s x)
  | swap x y l =>
    intro s
    show l.foldl sigaddset (sigaddset (sigaddset s y) x)
        = l.foldl sigaddset (sigaddset (sigaddset s x) y)
    rw [sigaddset, sigaddset, sigaddset, sigaddset, Finset.Insert.comm]
  | trans _ _ ih₁ ih₂ => intro s; exact (ih₁ s).trans (ih₂ s)

/-- Structural fact: when the validation pass succeeds, the drain's
dispatched-signal list is the loop's dispatched-signal list. -/
lemma sw_process_disp (hs : HandlerTable) (pending : Finset Nat)
    (hval : removeAll pending expSignals = ∅) :
    (sw_process_pending_signals hs pending).2.2.1
      = (drainLoop hs expSignals pending false).2.1 := by
  simp only [sw_process_pending_signals, hval]
  rw [if_neg (by simp)]
  rcases hdl : drainLoop hs expSignals pending false with ⟨out, disp, evs⟩
  cases out with
  | dead => rfl
  | cont tmp' si' => dsimp only; split_ifs <;> rfl

/-- Raising an in-domain, non-fault signal with a registered handler
invokes the handler and returns success. -/
lemma sw_raise_handler (hs : HandlerTable) (e : Nat) (hdom : e < W32_SIGMAX)
    (hfault : e ≠ W32_SIGSEGV) (hh : W32_SIG_IGN < htGet hs e) :
    sw_raise hs e = (.ok, [.handlerCall e (htGet hs e)]) := by
  unfold sw_raise
  rw [if_neg (by exact_mod_cast hfault)]
  rw [if_neg (by exact_mod_cast Nat.not_le.mpr hdom)]
  rw [if_neg (Int.not_lt.mpr (Int.natCast_nonneg e))]
  simp only [Int.toNat_natCast]
  rw [if_pos hh]

/-! ## Claim theorems -/

/-- C10: whenever the initial validation of the drain succeeds (every
pending kind is one of the five expected kinds), the fixed-order loop
removes every present kind from its working snapshot — the snapshot is
empty after full iteration — so the post-loop diagnostic-breakpoint
branch (`fatalLeftover`, the second `DebugBreak` at line 198) is
unreachable. -/
theorem C10_post_loop_break_unreachable (hs : HandlerTable)
    (pending : Finset Nat) (hvalid : ∀ x ∈ pending, x ∈ expSignals) :
    (∀ tmp' si' disp evs,
        drainLoop hs expSignals pending false = (.cont tmp' si', disp, evs) →
        tmp' = ∅)
    ∧ (sw_process_pending_signals hs pending).1 ≠ .fatalLeftover := by
  have hval : removeAll pending expSignals = ∅ :=
    (removeAll_eq_empty _ _).mpr hvalid
  constructor
  · intro tmp' si' disp evs h
    have := drainLoop_cont hs expSignals pending false tmp' si' (by rw [h])
    rw [this, hval]
  · simp only [sw_process_pending_signals, hval]
    rw [if_neg (by simp)]
    rcases hdl : drainLoop hs expSignals pending false with ⟨out, disp, evs⟩
    cases out with
    | dead => simp
    | cont tmp' si' =>
      have htmp : tmp' = ∅ := by
        have := drainLoop_cont hs expSignals pending false tmp' si'
          (by rw [hdl])
        rw [this, hval]
      rw [htmp]
      simp only [ne_eq, not_true_eq_false, if_false, ite_not]
      cases si' <;> simp

/-- C10 witness: an empty pending set is valid, and the post-loop
breakpoint is not hit. -/
theorem C10_post_loop_break_unreachable_witness :
    (∀ tmp' si' disp evs,
        drainLoop initHandlers expSignals ∅ false = (.cont tmp' si', disp, evs) →
        tmp' = ∅)
    ∧ (sw_process_pending_signals initHandlers ∅).1 ≠ .fatalLeftover :=
  C10_post_loop_break_unreachable initHandlers ∅ (by simp)

/-- C5: a pending set holding a kind outside the five blessed drain
kinds makes the drain hit the diagnostic breakpoint (`DebugBreak`, which
halts when no debugger is attached): the outcome is the fatal one, not
the ordinary success or interrupted result values. -/
theorem C5_unexpected_kind_is_fatal (hs : HandlerTable)
    (pending : Finset Nat) (hbad : ∃ x ∈ pending, x ∉ expSignals) :
    (sw_process_pending_signals hs pending).1 = .fatalUnexpected
    ∧ (sw_process_pending_signals hs pending).2.2.2 = [.debugBreak]
    ∧ (sw_process_pending_signals hs pending).1 ≠ .ok
    ∧ (sw_process_pending_signals hs pending).1 ≠ .eintr := by
  obtain ⟨x, hx, hnx⟩ := hbad
  have hmem : x ∈ removeAll pending expSignals :=
    (mem_removeAll x expSignals pending).mpr ⟨hx, hnx⟩
  have hne : removeAll pending expSignals ≠ ∅ := Finset.ne_empty_of_mem hmem
  simp only [sw_process_pending_signals, if_pos hne]
  simp

/-- C5 witness: `W32_SIGPIPE` is not one of the five drain kinds; having
it pending is fatal. -/
theorem C5_unexpected_kind_is_fatal_witness :
    (sw_process_pending_signals initHandlers {W32_SIGPIPE}).1 = .fatalUnexpected
    ∧ (sw_process_pending_signals initHandlers {W32_SIGPIPE}).2.2.2 = [.debugBreak]
    ∧ (sw_process_pending_signals initHandlers {W32_SIGPIPE}).1 ≠ .ok
    ∧ (sw_process_pending_signals initHandlers {W32_SIGPIPE}).1 ≠ .eintr :=
  C5_unexpected_kind_is_fatal initHandlers {W32_SIGPIPE} ⟨W32_SIGPIPE, by decide, by decide⟩

/-- C4: at the failing input `-1` (a negative signal number, outside the
closed domain), neither `sw_signal` nor `sw_raise` fails with `EINVAL`:
the source validates only `sig >= W32_SIGMAX`, so a negative number
passes validation and reaches `sig_handlers[sig]`, an out-of-bounds
access (undefined behavior), modelled as the distinguished `undef`
outcome. -/
theorem C4_negative_number_skips_validation :
    (sw_signal initHandlers (-1) 7).1 = .undef
    ∧ (sw_raise initHandlers (-1)).1 = .undef
    ∧ (sw_signal initHandlers (-1) 7).1 ≠ .err .EINVAL
    ∧ (sw_raise initHandlers (-1)).1 ≠ .err .EINVAL := by
  decide

/-- C8 counterexample: `W32_SIGSEGV` lies in the closed domain; with its
disposition set to Ignore, `raise` on it is NOT a pure no-op returning
success — the fault kind is escalated to the native `raise(SIGSEGV)`
before the disposition table is ever consulted. -/
theorem C8_counterexample :
    W32_SIGSEGV < W32_SIGMAX
    ∧ htGet (initHandlers.set W32_SIGSEGV W32_SIG_IGN) W32_SIGSEGV = W32_SIG_IGN
    ∧ sw_raise (initHandlers.set W32_SIGSEGV W32_SIG_IGN) (W32_SIGSEGV : Nat)
        = (.native, [.nativeRaise])
    ∧ sw_raise (initHandlers.set W32_SIGSEGV W32_SIG_IGN) (W32_SIGSEGV : Nat)
        ≠ (RaiseResult.ok, ([] : List Event)) := by
  decide

/-- C8 amended: for every signal number in the closed domain other than
the fault kind `W32_SIGSEGV` whose disposition is Ignore, `raise` is a
pure no-op: it requests no external action (no handler call, no default
action) and returns success. -/
theorem C8_amended_ignore_is_noop (hs : HandlerTable) (sig : Nat)
    (hdom : sig < W32_SIGMAX) (hfault : sig ≠ W32_SIGSEGV)
    (hign : htGet hs sig = W32_SIG_IGN) :
    sw_raise hs sig = (.ok, []) := by
  unfold sw_raise
  rw [if_neg (by exact_mod_cast hfault)]
  rw [if_neg (by exact_mod_cast Nat.not_le.mpr hdom)]
  rw [if_neg (Int.not_lt.mpr (Int.natCast_nonneg sig))]
  simp [hign, W32_SIG_IGN]

/-- C8 amended witness: `W32_SIGPIPE` set to Ignore; raising it is a
no-op. -/
theorem C8_amended_ignore_is_noop_witness :
    sw_raise (initHandlers.set W32_SIGPIPE W32_SIG_IGN) (W32_SIGPIPE : Nat)
      = (.ok, []) :=
  C8_amended_ignore_is_noop (initHandlers.set W32_SIGPIPE W32_SIG_IGN)
    W32_SIGPIPE (by decide) (by decide) (by decide)

/-- C2: when the drain's validation passes and each dispatched kind's
dispatch returns, the dispatched kinds are exactly the pending
non-ignored kinds, taken in the fixed priority order of `expSignals`
(child-exit, interactive-interrupt, alarm, terminate-request,
interactive-stop); and for a pending set obtained by marking
terminate-request, interactive-interrupt and child-exit in any order
(each with a registered handler), the dispatch order is child-exit,
interactive-interrupt, terminate-request. -/
theorem C2_fixed_priority_order (hs : HandlerTable) :
    (∀ pending : Finset Nat,
        (∀ x ∈ pending, x ∈ expSignals) →
        (∀ e ∈ expSignals, e ∈ pending → htGet hs e ≠ W32_SIG_IGN →
            (sw_raise hs e).1 ≠ .terminated) →
        (sw_process_pending_signals hs pending).2.2.1
          = expSignals.filter (canDispatch hs pending))
    ∧ (∀ l : List Nat,
        l.Perm [W32_SIGTERM, W32_SIGINT, W32_SIGCHLD] →
        (∀ e ∈ l, W32_SIG_IGN < htGet hs e) →
        (sw_process_pending_signals hs (l.foldl sigaddset sigemptyset)).2.2.1
          = [W32_SIGCHLD, W32_SIGINT, W32_SIGTERM]) := by
  have part1 : ∀ pending : Finset Nat,
      (∀ x ∈ pending, x ∈ expSignals) →
      (∀ e ∈ expSignals, e ∈ pending → htGet hs e ≠ W32_SIG_IGN →
          (sw_raise hs e).1 ≠ .terminated) →
      (sw_process_pending_signals hs pending).2.2.1
        = expSignals.filter (canDispatch hs pending) := by
    intro pending hvalid hret
    have hval := (removeAll_eq_empty expSignals pending).mpr hvalid
    rw [sw_process_disp hs pending hval]
    exact (drainLoop_spec hs expSignals pending false (by decide) hret).2
  refine ⟨part1, ?_⟩
  intro l hperm hh
  rw [foldl_sigaddset_perm hperm sigemptyset]
  have hPm : ∀ x : Nat,
      x ∈ [W32_SIGTERM, W32_SIGINT, W32_SIGCHLD].foldl sigaddset sigemptyset ↔
        (x = W32_SIGTERM ∨ x = W32_SIGINT ∨ x = W32_SIGCHLD) := by
    intro x
    simp [sigaddset, sigemptyset]
    tauto
  have hh' : ∀ e : Nat,
      e ∈ [W32_SIGTERM, W32_SIGINT, W32_SIGCHLD].foldl sigaddset sigemptyset →
        W32_SIG_IGN < htGet hs e := by
    intro e he
    exact hh e (hperm.mem_iff.mpr (by
      rcases (hPm e).mp he with h | h | h <;> simp [h]))
  have hT : htGet hs W32_SIGTERM ≠ W32_SIG_IGN :=
    ne_of_gt (hh' W32_SIGTERM ((hPm _).mpr (Or.inl rfl)))
  have hI : htGet hs W32_SIGINT ≠ W32_SIG_IGN :=
    ne_of_gt (hh' W32_SIGINT ((hPm _).mpr (Or.inr (Or.inl rfl))))
  have hC : htGet hs W32_SIGCHLD ≠ W32_SIG_IGN :=
    ne_of_gt (hh' W32_SIGCHLD ((hPm _).mpr (Or.inr (Or.inr rfl))))
  rw [part1 _ (by intro x hx; rcases (hPm x).mp hx with h | h | h <;> simp [h, expSignals])
      (by
        intro e hexp hmem hig
        have hgt := hh' e hmem
        rcases (hPm e).mp hmem with h | h | h <;>
          subst h <;>
          rw [sw_raise_handler hs _ (by decide) (by decide) hgt] <;>
          simp)]
  simp only [expSignals, List.filter_cons, List.filter_nil]
  have c3 : canDispatch hs
      ([W32_SIGTERM, W32_SIGINT, W32_SIGCHLD].foldl sigaddset sigemptyset)
      W32_SIGCHLD = true := by
    simp [canDispatch, sigismember, hC]
    decide
  have c0 : canDispatch hs
      ([W32_SIGTERM, W32_SIGINT, W32_SIGCHLD].foldl sigaddset sigemptyset)
      W32_SIGINT = true := by
    simp [canDispatch, sigismember, hI]
    decide
  have c9 : canDispatch hs
      ([W32_SIGTERM, W32_SIGINT, W32_SIGCHLD].foldl sigaddset sigemptyset)
      W32_SIGTERM = true := by
    simp [canDispatch, sigismember, hT]
    decide
  have c4 : canDispatch hs
      ([W32_SIGTERM, W32_SIGINT, W32_SIGCHLD].foldl sigaddset sigemptyset)
      W32_SIGALRM = false := by
    simp [canDispatch, sigismember]
    intro hmem
    exact absurd hmem (by decide)
  have c5 : canDispatch hs
      ([W32_SIGTERM, W32_SIGINT, W32_SIGCHLD].foldl sigaddset sigemptyset)
      W32_SIGTSTP = false := by
    simp [canDispatch, sigismember]
    intro hmem
    exact absurd hmem (by decide)
  rw [c3, c0, c9, c4, c5]
  rfl

/-- C2 witness: with handlers registered for the three kinds, marking
them in the order interrupt, child-exit, terminate still dispatches in
the order child-exit, interrupt, terminate. -/
theorem C2_fixed_priority_order_witness :
    (sw_process_pending_signals
        (((initHandlers.set W32_SIGINT 7).set W32_SIGTERM 8).set W32_SIGCHLD 9)
        ([W32_SIGINT, W32_SIGCHLD, W32_SIGTERM].foldl sigaddset sigemptyset)).2.2.1
      = [W32_SIGCHLD, W32_SIGINT, W32_SIGTERM] :=
  (C2_fixed_priority_order
      (((initHandlers.set W32_SIGINT 7).set W32_SIGTERM 8).set W32_SIGCHLD 9)).2
    [W32_SIGINT, W32_SIGCHLD, W32_SIGTERM] (by decide) (by decide)

/-- C3 counterexample: the pending set holding only the alarm kind, with
every disposition left at Default, dispatches only the alarm — yet the
drain does not return success: the alarm's Default action is
`ExitThread(1)`, so the call never returns at all. -/
theorem C3_counterexample :
    (sw_process_pending_signals initHandlers {W32_SIGALRM}).2.2.1 = [W32_SIGALRM]
    ∧ (sw_process_pending_signals initHandlers {W32_SIGALRM}).1 = .terminated
    ∧ (sw_process_pending_signals initHandlers {W32_SIGALRM}).1 ≠ .ok := by
  decide

/-- C3 amended: for every valid pending set, provided each dispatched
kind's dispatch returns (its disposition is a registered handler, or it
is child-exit), the drain returns the interrupted result (`EINTR`, -1)
exactly when some non-alarm kind with a non-Ignore disposition is
pending, and returns success otherwise (alarm-only dispatch, or every
present kind ignored). -/
theorem C3_amended_alarm_only_success (hs : HandlerTable)
    (pending : Finset Nat)
    (hvalid : ∀ x ∈ pending, x ∈ expSignals)
    (hret : ∀ e ∈ expSignals, e ∈ pending → htGet hs e ≠ W32_SIG_IGN →
        (sw_raise hs e).1 ≠ .terminated) :
    (sw_process_pending_signals hs pending).1
      = (if expSignals.any
            fun x => canDispatch hs pending x && decide (x ≠ W32_SIGALRM)
         then DrainResult.eintr else DrainResult.ok) := by
  have hval := (removeAll_eq_empty expSignals pending).mpr hvalid
  have hspec := drainLoop_spec hs expSignals pending false (by decide) hret
  simp only [sw_process_pending_signals, hval]
  rw [if_neg (by simp)]
  rcases hdl : drainLoop hs expSignals pending false with ⟨out, disp, evs⟩
  rw [hdl] at hspec
  cases out with
  | dead => exact absurd hspec.1 (by simp)
  | cont tmp' si' =>
    obtain ⟨htmp, hsi⟩ := LoopOut.cont.inj hspec.1
    rw [htmp, hval]
    dsimp only
    rw [if_neg (by simp)]
    rw [hsi, Bool.false_or]
    split_ifs <;> rfl

/-- C3 amended witness: alarm pending with a registered alarm handler
drains to success. -/
theorem C3_amended_alarm_only_success_witness :
    (sw_process_pending_signals (initHandlers.set W32_SIGALRM 7) {W32_SIGALRM}).1
      = (if expSignals.any
            fun x => canDispatch (initHandlers.set W32_SIGALRM 7) {W32_SIGALRM} x
              && decide (x ≠ W32_SIGALRM)
         then DrainResult.eintr else DrainResult.ok) :=
  C3_amended_alarm_only_success (initHandlers.set W32_SIGALRM 7) {W32_SIGALRM}
    (by decide) (by decide)

lemma live_children_eq (ch : Children) (hz : ch.num_zombies ≤ ch.num_children)
    (hc : ch.num_children < 2 ^ 32) :
    live_children ch = ch.num_children - ch.num_zombies := by
  unfold live_children
  have h32 : (2 : Nat) ^ 32 = 4294967296 := by norm_num
  rw [h32]
  omega

lemma wfaTail_preDrain (hs : HandlerTable) (p : Finset Nat) :
    (wfaTail hs p).preDrain = p := by
  unfold wfaTail; split_ifs <;> rfl

lemma wfaTail_drained (hs : HandlerTable) (p : Finset Nat) (hp : p ≠ ∅) :
    (wfaTail hs p).drained = true := by
  unfold wfaTail; rw [if_pos hp]

lemma wfaTail_events (hs : HandlerTable) (p : Finset Nat) (hp : p ≠ ∅) :
    (wfaTail hs p).events = (sw_process_pending_signals hs p).2.2.2 := by
  unfold wfaTail; rw [if_pos hp]

/-- With child-exit pending at Default disposition, the first step of the
fixed-order loop calls `sw_raise(W32_SIGCHLD)`, which runs the reap-all
default action. -/
lemma reap_in_drainLoop (hs : HandlerTable) (tmp : Finset Nat) (si : Bool)
    (hchld : W32_SIGCHLD ∈ tmp) (hdfl : htGet hs W32_SIGCHLD = W32_SIG_DFL) :
    Event.reapZombies ∈ (drainLoop hs expSignals tmp si).2.2 := by
  have hraise : sw_raise hs (W32_SIGCHLD : Nat) = (.ok, [.reapZombies]) := by
    unfold sw_raise
    rw [if_neg (by decide), if_neg (by decide), if_neg (by decide)]
    simp only [Int.toNat_natCast]
    rw [hdfl]
    rfl
  simp only [expSignals, drainLoop]
  rw [if_pos (show sigismember tmp W32_SIGCHLD from hchld)]
  rw [if_pos (show htGet hs W32_SIGCHLD ≠ W32_SIG_IGN by rw [hdfl]; decide)]
  rw [hraise]
  rw [if_neg (by simp)]
  simp

/-- With child-exit pending at Default disposition and a valid pending
set, the drain executes the reap-all default action. -/
lemma reap_in_drain (hs : HandlerTable) (pending : Finset Nat)
    (hchld : W32_SIGCHLD ∈ pending)
    (hdfl : htGet hs W32_SIGCHLD = W32_SIG_DFL)
    (hval : removeAll pending expSignals = ∅) :
    Event.reapZombies ∈ (sw_process_pending_signals hs pending).2.2.2 := by
  have hloop := reap_in_drainLoop hs pending false hchld hdfl
  simp only [sw_process_pending_signals, hval]
  rw [if_neg (by simp)]
  rcases hdl : drainLoop hs expSignals pending false with ⟨out, disp, evs⟩
  rw [hdl] at hloop
  cases out with
  | dead => exact hloop
  | cont tmp' si' =>
    dsimp only
    split_ifs
    · exact List.mem_append_left _ hloop
    · exact hloop
    · exact hloop

/-- C7: if the caller-supplied handle count plus the live-child count
exceeds `MAXIMUM_WAIT_OBJECTS`, the call fails with the capacity error
(`ENOTSUP`, -1), reaches neither the multi-object wait nor the sleep, and
changes no state: the pending set is returned unchanged and no external
action (no child-table transition, no handler, no reap) is requested; the
handler table is never written by `wait_for_any_event` at all. -/
theorem C7_capacity_exceeded_no_wait (ch : Children) (hs : HandlerTable)
    (pending : Finset Nat) (n ms : Nat) (wake : WakeOutcome)
    (hcap : n + live_children ch > MAXIMUM_WAIT_OBJECTS) :
    wait_for_any_event ch hs pending n ms wake
      = ⟨.errno .ENOTSUP, pending, [], false, false, pending⟩ := by
  simp only [wait_for_any_event]
  rw [if_pos hcap]

/-- C7 witness: 65 caller handles and no children is one above the
ceiling. -/
theorem C7_capacity_exceeded_no_wait_witness :
    wait_for_any_event ⟨0, 0⟩ initHandlers ∅ 65 0 .timeout
      = ⟨.errno .ENOTSUP, ∅, [], false, false, ∅⟩ :=
  C7_capacity_exceeded_no_wait ⟨0, 0⟩ initHandlers ∅ 65 0 .timeout (by decide)

/-- C6: whenever the native wait ends because the interval elapsed, the
call returns the timed-out result immediately: the drain loop is not
invoked, the pending set is untouched and no external action is
requested; in particular, with no caller handles, timeout 0, no children
and an empty pending set, the call times out without draining. -/
theorem C6_timeout_skips_drain (ch : Children) (hs : HandlerTable)
    (pending : Finset Nat) (n ms : Nat)
    (hcap : ¬ n + live_children ch > MAXIMUM_WAIT_OBJECTS) :
    wait_for_any_event ch hs pending n ms .timeout
      = ⟨.timedOut, pending, [], true, false, pending⟩
    ∧ wait_for_any_event ⟨0, 0⟩ hs ∅ 0 0 .timeout
      = ⟨.timedOut, ∅, [], true, false, ∅⟩ := by
  constructor
  · simp only [wait_for_any_event]
    rw [if_neg hcap]
    by_cases h : n + live_children ch ≠ 0
    · rw [if_pos h]
    · rw [if_neg h]
  · have h0 : live_children ⟨0, 0⟩ = 0 := by norm_num [live_children]
    simp only [wait_for_any_event, h0]
    norm_num

/-- C6 witness. -/
theorem C6_timeout_skips_drain_witness :
    wait_for_any_event ⟨0, 0⟩ initHandlers ∅ 0 0 .timeout
      = ⟨.timedOut, ∅, [], true, false, ∅⟩
    ∧ wait_for_any_event ⟨0, 0⟩ initHandlers ∅ 0 0 .timeout
      = ⟨.timedOut, ∅, [], true, false, ∅⟩ :=
  C6_timeout_skips_drain ⟨0, 0⟩ initHandlers ∅ 0 0 (by decide)

/-- C9: the child-exit classification compares the signaled combined
index against `children.num_children`, the count of ALL children, even
though only `num_children - num_zombies` live child handles occupy the
front of the combined set; so when at least one zombie exists, a wake on
a caller-supplied handle whose combined index lies in
`[num_children - num_zombies, num_children)` is classified as a child
exit: child-exit is marked pending and `sw_child_to_zombie` is requested
for that index. -/
theorem C9_stale_count_misclassifies_wake (ch : Children)
    (hs : HandlerTable) (pending : Finset Nat) (n ms idx : Nat)
    (hz : ch.num_zombies ≤ ch.num_children) (hc : ch.num_children < 2 ^ 32)
    (hcap : n + (ch.num_children - ch.num_zombies) ≤ MAXIMUM_WAIT_OBJECTS)
    (hlow : ch.num_children - ch.num_zombies ≤ idx)
    (hhigh : idx < ch.num_children)
    (hall : idx < n + (ch.num_children - ch.num_zombies)) :
    (wait_for_any_event ch hs pending n ms (.signaled idx)).preDrain
        = sigaddset pending W32_SIGCHLD
    ∧ ∃ rest, (wait_for_any_event ch hs pending n ms (.signaled idx)).events
        = Event.childToZombie idx :: rest := by
  simp only [wait_for_any_event, live_children_eq ch hz hc]
  rw [if_neg (by omega)]
  rw [if_pos (by omega : n + (ch.num_children - ch.num_zombies) ≠ 0)]
  rw [if_pos (by omega : idx ≤ n + (ch.num_children - ch.num_zombies) - 1)]
  rw [if_pos (⟨by omega, hhigh⟩ : ch.num_children ≠ 0 ∧ idx < ch.num_children)]
  exact ⟨wfaTail_preDrain hs _, ⟨_, rfl⟩⟩

/-- C9 witness: two children of which one is a zombie, one caller
handle; its combined index 1 satisfies `1 < num_children = 2` and is
misclassified. -/
theorem C9_stale_count_misclassifies_wake_witness :
    (wait_for_any_event ⟨2, 1⟩ initHandlers ∅ 1 0 (.signaled 1)).preDrain
        = sigaddset ∅ W32_SIGCHLD
    ∧ ∃ rest, (wait_for_any_event ⟨2, 1⟩ initHandlers ∅ 1 0 (.signaled 1)).events
        = Event.childToZombie 1 :: rest :=
  C9_stale_count_misclassifies_wake ⟨2, 1⟩ initHandlers ∅ 1 0 1
    (by decide) (by decide) (by decide) (by decide) (by decide) (by decide)

/-- C1: when a tracked live child handle (combined index below the live
child count) becomes signaled, the call marks child-exit pending,
requests `sw_child_to_zombie` for that index before returning, invokes
the drain, and — the child-exit disposition being Default — the
reap-all-zombie-eligible default action (`sw_cleanup_child_zombies`)
executes during that drain. -/
theorem C1_live_child_wake_reaps (ch : Children) (hs : HandlerTable)
    (pending : Finset Nat) (n ms idx : Nat)
    (hz : ch.num_zombies ≤ ch.num_children) (hc : ch.num_children < 2 ^ 32)
    (hcap : n + (ch.num_children - ch.num_zombies) ≤ MAXIMUM_WAIT_OBJECTS)
    (hidx : idx < ch.num_children - ch.num_zombies)
    (hvalid : ∀ x ∈ pending, x ∈ expSignals)
    (hdfl : htGet hs W32_SIGCHLD = W32_SIG_DFL) :
    (wait_for_any_event ch hs pending n ms (.signaled idx)).preDrain
        = sigaddset pending W32_SIGCHLD
    ∧ sigismember
        (wait_for_any_event ch hs pending n ms (.signaled idx)).preDrain
        W32_SIGCHLD
    ∧ Event.childToZombie idx
        ∈ (wait_for_any_event ch hs pending n ms (.signaled idx)).events
    ∧ (wait_for_any_event ch hs pending n ms (.signaled idx)).drained = true
    ∧ Event.reapZombies
        ∈ (wait_for_any_event ch hs pending n ms (.signaled idx)).events := by
  have hne : sigaddset pending W32_SIGCHLD ≠ ∅ := by
    rw [sigaddset]
    exact Finset.insert_ne_empty _ _
  have hval' : removeAll (sigaddset pending W32_SIGCHLD) expSignals = ∅ := by
    rw [removeAll_eq_empty]
    intro x hx
    rcases Finset.mem_insert.mp hx with h | h
    · rw [h]; decide
    · exact hvalid x h
  have hrec : wait_for_any_event ch hs pending n ms (.signaled idx)
      = ⟨(wfaTail hs (sigaddset pending W32_SIGCHLD)).ret,
         (wfaTail hs (sigaddset pending W32_SIGCHLD)).pending,
         .childToZombie idx :: (wfaTail hs (sigaddset pending W32_SIGCHLD)).events,
         true,
         (wfaTail hs (sigaddset pending W32_SIGCHLD)).drained,
         (wfaTail hs (sigaddset pending W32_SIGCHLD)).preDrain⟩ := by
    simp only [wait_for_any_event, live_children_eq ch hz hc]
    rw [if_neg (by omega)]
    rw [if_pos (by omega : n + (ch.num_children - ch.num_zombies) ≠ 0)]
    rw [if_pos (by omega : idx ≤ n + (ch.num_children - ch.num_zombies) - 1)]
    rw [if_pos (⟨by omega, by omega⟩
      : ch.num_children ≠ 0 ∧ idx < ch.num_children)]
  rw [hrec]
  refine ⟨wfaTail_preDrain hs _, ?_, ?_, ?_, ?_⟩
  · rw [wfaTail_preDrain hs _]
    exact Finset.mem_insert_self _ _
  · exact List.mem_cons_self _ _
  · exact wfaTail_drained hs _ hne
  · refine List.mem_cons_of_mem _ ?_
    rw [wfaTail_events hs _ hne]
    exact reap_in_drain hs _ (Finset.mem_insert_self _ _) hdfl hval'

/-- C1 witness: one live child, no caller handles, empty prior pending,
all dispositions Default; its handle signaling at index 0 marks
child-exit, retires child 0 and reaps during the drain. -/
theorem C1_live_child_wake_reaps_witness :
    (wait_for_any_event ⟨1, 0⟩ initHandlers ∅ 0 0 (.signaled 0)).preDrain
        = sigaddset ∅ W32_SIGCHLD
    ∧ sigismember
        (wait_for_any_event ⟨1, 0⟩ initHandlers ∅ 0 0 (.signaled 0)).preDrain
        W32_SIGCHLD
    ∧ Event.childToZombie 0
        ∈ (wait_for_any_event ⟨1, 0⟩ initHandlers ∅ 0 0 (.signaled 0)).events
    ∧ (wait_for_any_event ⟨1, 0⟩ initHandlers ∅ 0 0 (.signaled 0)).drained = true
    ∧ Event.reapZombies
        ∈ (wait_for_any_event ⟨1, 0⟩ initHandlers ∅ 0 0 (.signaled 0)).events :=
  C1_live_child_wake_reaps ⟨1, 0⟩ initHandlers ∅ 0 0 0
    (by decide) (by decide) (by decide) (by decide) (by decide) (by decide)

end SignalC
